import Mathlib

/-!
Verification of the UTXO-funded transaction pipeline of `src/assignment.js`
(`simulatePSBT` and its helpers `getUTXOs`, `getTransactionHex`,
`broadcastTransaction`).  The JavaScript functions are shallowly embedded as
Lean definitions; network transport is modelled by passing the gateway's
responses in explicitly (an `Oracle`).  Satoshi amounts are `Nat` (the API
returns non-negative integers); the change computation, which can go
negative in the source, is carried out in `Int` exactly as the source does
with JavaScript numbers.
-/

namespace PSBT

/-- A UTXO as mapped by `getUTXOs` (src/assignment.js lines 45-50):
`{txid, vout, value, status}`. -/
structure UTXO where
  txid : String
  vout : Nat
  value : Nat
  status : Bool
deriving DecidableEq, Repr

/-- Error taxonomy of the pipeline.  The source throws plain `Error`s with
distinct messages; each distinct failure site becomes a constructor. -/
inductive PipelineError where
  /-- `Failed to fetch UTXOs: <transport message>` / transport failures. -/
  | NetworkError (msg : String)
  /-- `No UTXOs found for this address` (src/assignment.js line 41). -/
  | NoFundsError
  /-- `No UTXO with sufficient balance found...` (line 119) and
  `Input amount is not enough...` (line 155). -/
  | InsufficientFundsError (site : String)
  /-- `Failed to broadcast transaction: <message>` (line 92). -/
  | BroadcastError (msg : String)
  /-- Signer/finalizer failure (spec section 4.4). -/
  | FinalizationError
deriving DecidableEq, Repr

/-- Transaction parameters (src/assignment.js lines 19-21). -/
def AMOUNT_TO_SEND : Nat := 1000

def FEE : Nat := 200

def DESTINATION_ADDRESS : String := "tb1qlj64u6fqutr0xue85kl55fx0gt4m4urun25p7q"

/-- A locking script.  The source derives it with
`bitcoin.payments.p2wpkh({pubkey}).output`; the derivation is deterministic
in the public key, which is all the claims need, so the script is kept
symbolic. -/
inductive Script where
  | p2wpkh (pubkey : String)
deriving DecidableEq, Repr

/-- `getUTXOs` (src/assignment.js lines 32-56).  The `axios.get` response is
passed in: `.error msg` is a transport failure.  The source throws on an
empty array inside the `try`, so that error is re-wrapped by the `catch`
like a transport error, but remains distinguishable (fixed message). -/
def getUTXOs (response : Except String (List UTXO)) : Except PipelineError (List UTXO) :=
  match response with
  | .error msg => .error (.NetworkError ("Failed to fetch UTXOs: " ++ msg))
  | .ok data =>
    if data.length = 0 then
      .error .NoFundsError
    else
      .ok (data.map (fun u => { txid := u.txid, vout := u.vout, value := u.value, status := u.status }))

/-- `getTransactionHex` (src/assignment.js lines 63-76): returns the raw hex
from the gateway or wraps the transport failure. -/
def getTransactionHex (response : Except String String) : Except PipelineError String :=
  match response with
  | .error msg => .error (.NetworkError ("Failed to fetch transaction hex for UTXO: " ++ msg))
  | .ok data => .ok data

/-- Coin selection (src/assignment.js line 116):
`utxos.find(u => u.value >= AMOUNT_TO_SEND + FEE)` generalised over the
minimum value, exactly `Array.prototype.find`. -/
def selectUTXO (utxos : List UTXO) (minimumValue : Nat) : Option UTXO :=
  utxos.find? (fun u => minimumValue ≤ u.value)

/-- One transaction input as added by `psbt.addInput` (lines 139-148):
prevout reference plus the `witnessUtxo` (spent output's script and value). -/
structure TxInput where
  hash : String
  index : Nat
  witnessScript : Script
  witnessValue : Nat
deriving DecidableEq, Repr

/-- One transaction output as added by `psbt.addOutput`: address and value. -/
structure TxOutput where
  address : String
  value : Nat
deriving DecidableEq, Repr

/-- The transaction under construction: ordered inputs and outputs. -/
structure UnsignedTx where
  inputs : List TxInput
  outputs : List TxOutput
deriving DecidableEq, Repr

/-- The builder step of `simulatePSBT` (src/assignment.js lines 136-175):
add the single input with its `witnessUtxo`, compute
`change = utxo.value - AMOUNT_TO_SEND - FEE`, fail if `change < 0`, emit
the destination output, and emit a change output back to the sender's own
address only when `change > 0`. -/
def build (utxo : UTXO) (senderScript : Script) (senderAddress : String)
    (destination : String) (amountToSend fee : Nat) :
    Except PipelineError UnsignedTx :=
  let change : Int := (utxo.value : Int) - (amountToSend : Int) - (fee : Int)
  if change < 0 then
    .error (.InsufficientFundsError "Input amount is not enough to cover the transaction and fee.")
  else
    let inputs : List TxInput :=
      [{ hash := utxo.txid, index := utxo.vout,
         witnessScript := senderScript, witnessValue := utxo.value }]
    let outputs : List TxOutput :=
      [{ address := destination, value := amountToSend }] ++
        (if 0 < change then
          [{ address := senderAddress, value := change.toNat }]
        else [])
    .ok { inputs := inputs, outputs := outputs }

/-- Sum of input values of a transaction. -/
def inputSum (tx : UnsignedTx) : Nat :=
  (tx.inputs.map TxInput.witnessValue).sum

/-- Sum of output values of a transaction. -/
def outputSum (tx : UnsignedTx) : Nat :=
  (tx.outputs.map TxOutput.value).sum

/-- Bytes of a string (txids, addresses and keys are hex/bech32 strings in
the source; their byte rendering is deterministic). -/
def strBytes (s : String) : List Nat :=
  s.toList.map Char.toNat

/-- A witness stack: a list of stack items, each a byte list. -/
abbrev WitnessStack := List (List Nat)

/-- Modelled from the spec: the witness-program signature over the input's
signature hash (spec section 4.4).  `bitcoinjs-lib`'s ECDSA signing is not
part of this repository; it is a deterministic function of the private key,
the transaction data (which commits to the witness value and script) and
the input index, which is all the claims need. -/
def signatureBytes (privKey : String) (tx : UnsignedTx) (inputIndex : Nat) : List Nat :=
  strBytes privKey ++ [inputIndex] ++
    tx.inputs.map TxInput.witnessValue ++ tx.outputs.map TxOutput.value

/-- The PSBT after construction and (possibly partial) signing: the
transaction plus, per input, an optional witness stack. -/
structure SignedState where
  tx : UnsignedTx
  witnesses : List (Option WitnessStack)
deriving DecidableEq, Repr

/-- Modelled from the spec: `sign(unsignedTx, keyPair, inputIndex)` (spec
section 4.4; `psbt.signInput(0, keyPair)` at src/assignment.js line 181).
`bitcoinjs-lib`'s signer is not part of this repository.  It attaches the
signature and public key as the witness stack of the given input. -/
def signInput (tx : UnsignedTx) (privKey pubkey : String) (inputIndex : Nat) : SignedState :=
  { tx := tx,
    witnesses := (List.range tx.inputs.length).map fun i =>
      if i = inputIndex then some [signatureBytes privKey tx i, strBytes pubkey] else none }

/-- Modelled from the spec: `finalize` (spec section 4.4;
`psbt.finalizeAllInputs()` at src/assignment.js line 185).
`bitcoinjs-lib`'s finalizer is not part of this repository.  It fails with
`FinalizationError` if any input lacks a completed witness; otherwise the
transaction with its witnesses is the finalized result. -/
def finalizeAllInputs (s : SignedState) : Except PipelineError SignedState :=
  if s.witnesses.all Option.isSome then .ok s else .error .FinalizationError

/-- Hardcoded wallet private key (src/assignment.js line 14). -/
def WALLET_PRIVATE_KEY : String := "cTGAe5L4f2yUUFf1dfc4cbu8dWSmwDv2Yy6Hys4LvqMwmXqEAw9T"

/-- Modelled from the spec: public-key derivation from the WIF private key
(`ECPair.fromWIF(...).publicKey`, spec section 3 KeyPair).  The curve
arithmetic lives in `ecpair`/`tiny-secp256k1`, not in this repository; all
the claims need is that it is a deterministic function of the key. -/
def pubkeyOfPriv (privKey : String) : String :=
  "pubkey:" ++ privKey

/-- Modelled from the spec: the segwit v0 address derived deterministically
from a public key (`bitcoin.payments.p2wpkh({pubkey}).address`, spec
section 3 Address); the bech32 encoding is library code. -/
def p2wpkhAddress (pubkey : String) : String :=
  "p2wpkh:" ++ pubkey

-- ==========================================================================
-- Wire encoding (spec section 6: standard segwit v0 serialization).
-- Modelled from the spec: `bitcoinjs-lib`'s `Transaction.toHex`/`fromHex`
-- are not part of this repository; the format below follows the spec's
-- description: version, marker/flag, input list (prevout hash+index, empty
-- legacy script, sequence), output list (value + locking script), per-input
-- witness stack, locktime, with Bitcoin's little-endian integers and
-- CompactSize counts.
-- ==========================================================================

/-- `w`-byte little-endian encoding of `n`. -/
def encodeLE : Nat → Nat → List Nat
  | 0, _ => []
  | w + 1, n => n % 256 :: encodeLE w (n / 256)

/-- Parse a `w`-byte little-endian integer; returns the value and the rest. -/
def parseLE : Nat → List Nat → Option (Nat × List Nat)
  | 0, bs => some (0, bs)
  | _ + 1, [] => none
  | w + 1, b :: bs =>
    match parseLE w bs with
    | none => none
    | some (n, r) => some (b + 256 * n, r)

/-- Bitcoin CompactSize encoding of `n`. -/
def encodeVarint (n : Nat) : List Nat :=
  if n < 0xfd then [n]
  else if n < 0x10000 then 0xfd :: encodeLE 2 n
  else if n < 0x100000000 then 0xfe :: encodeLE 4 n
  else 0xff :: encodeLE 8 n

/-- Parse a CompactSize integer. -/
def parseVarint : List Nat → Option (Nat × List Nat)
  | [] => none
  | b :: bs =>
    if b = 0xfd then parseLE 2 bs
    else if b = 0xfe then parseLE 4 bs
    else if b = 0xff then parseLE 8 bs
    else some (b, bs)

/-- Parse exactly `n` raw bytes. -/
def parseFixed (n : Nat) (bs : List Nat) : Option (List Nat × List Nat) :=
  if n ≤ bs.length then some (bs.take n, bs.drop n) else none

/-- Parse a CompactSize-length-prefixed byte string. -/
def parseBytes (bs : List Nat) : Option (List Nat × List Nat) :=
  (parseVarint bs).bind fun (n, r) =>
  parseFixed n r

/-- Run a parser exactly `n` times, collecting the results in order. -/
def parseCount {α : Type} (p : List Nat → Option (α × List Nat)) :
    Nat → List Nat → Option (List α × List Nat)
  | 0, bs => some ([], bs)
  | n + 1, bs =>
    (p bs).bind fun (a, r) =>
    (parseCount p n r).bind fun (as, r2) =>
    some (a :: as, r2)

/-- A wire-format transaction input: prevout hash and index, legacy script
(empty for segwit spends), sequence. -/
structure WireInput where
  prevHash : List Nat
  prevIndex : Nat
  scriptSig : List Nat
  sequence : Nat
deriving DecidableEq, Repr

/-- A wire-format transaction output: value and locking script. -/
structure WireOutput where
  value : Nat
  scriptPubKey : List Nat
deriving DecidableEq, Repr

/-- A fully signed wire-format transaction: version, inputs, outputs,
per-input witness stacks, locktime. -/
structure SignedTx where
  version : Nat
  inputs : List WireInput
  outputs : List WireOutput
  witnesses : List WitnessStack
  locktime : Nat
deriving DecidableEq, Repr

def serializeInput (i : WireInput) : List Nat :=
  i.prevHash ++ encodeLE 4 i.prevIndex ++
    encodeVarint i.scriptSig.length ++ i.scriptSig ++ encodeLE 4 i.sequence

def parseInput (bs : List Nat) : Option (WireInput × List Nat) :=
  (parseFixed 32 bs).bind fun (h, r1) =>
  (parseLE 4 r1).bind fun (idx, r2) =>
  (parseBytes r2).bind fun (ss, r3) =>
  (parseLE 4 r3).bind fun (seq, r4) =>
  some ({ prevHash := h, prevIndex := idx, scriptSig := ss, sequence := seq }, r4)

def serializeOutput (o : WireOutput) : List Nat :=
  encodeLE 8 o.value ++ encodeVarint o.scriptPubKey.length ++ o.scriptPubKey

def parseOutput (bs : List Nat) : Option (WireOutput × List Nat) :=
  (parseLE 8 bs).bind fun (v, r1) =>
  (parseBytes r1).bind fun (spk, r2) =>
  some ({ value := v, scriptPubKey := spk }, r2)

def serializeWitnessStack (w : WitnessStack) : List Nat :=
  encodeVarint w.length ++ w.flatMap (fun item => encodeVarint item.length ++ item)

def parseWitnessStack (bs : List Nat) : Option (WitnessStack × List Nat) :=
  (parseVarint bs).bind fun (n, r) =>
  parseCount parseBytes n r

/-- Serialize a signed transaction to its segwit v0 wire encoding. -/
def serializeTx (tx : SignedTx) : List Nat :=
  encodeLE 4 tx.version ++ [0, 1] ++
    encodeVarint tx.inputs.length ++ tx.inputs.flatMap serializeInput ++
    encodeVarint tx.outputs.length ++ tx.outputs.flatMap serializeOutput ++
    tx.witnesses.flatMap serializeWitnessStack ++
    encodeLE 4 tx.locktime

/-- Parse a full segwit v0 wire encoding back into a `SignedTx`, requiring
the whole input to be consumed. -/
def parseTx (bs : List Nat) : Option SignedTx :=
  (parseLE 4 bs).bind fun (ver, r0) =>
  (parseFixed 2 r0).bind fun (markerFlag, r1) =>
  if markerFlag = [0, 1] then
    (parseVarint r1).bind fun (nIn, r2) =>
    (parseCount parseInput nIn r2).bind fun (ins, r3) =>
    (parseVarint r3).bind fun (nOut, r4) =>
    (parseCount parseOutput nOut r4).bind fun (outs, r5) =>
    (parseCount parseWitnessStack nIn r5).bind fun (ws, r6) =>
    (parseLE 4 r6).bind fun (lt, r7) =>
    if r7 = [] then
      some { version := ver, inputs := ins, outputs := outs,
             witnesses := ws, locktime := lt }
    else none
  else none

/-- Well-formedness of a wire input: 32-byte prevout hash, 4-byte index and
sequence, CompactSize-representable script length. -/
def WFInput (i : WireInput) : Prop :=
  i.prevHash.length = 32 ∧ i.prevIndex < 4294967296 ∧
    i.scriptSig.length < 18446744073709551616 ∧ i.sequence < 4294967296

instance (i : WireInput) : Decidable (WFInput i) := by
  unfold WFInput; infer_instance

/-- Well-formedness of a wire output: 8-byte value, CompactSize script. -/
def WFOutput (o : WireOutput) : Prop :=
  o.value < 18446744073709551616 ∧ o.scriptPubKey.length < 18446744073709551616

instance (o : WireOutput) : Decidable (WFOutput o) := by
  unfold WFOutput; infer_instance

/-- Well-formedness of a witness stack: CompactSize item count and lengths. -/
def WFWitness (w : WitnessStack) : Prop :=
  w.length < 18446744073709551616 ∧ ∀ item ∈ w, item.length < 18446744073709551616

instance (w : WitnessStack) : Decidable (WFWitness w) := by
  unfold WFWitness; infer_instance

/-- Well-formedness of a signed transaction: field ranges and one witness
stack per input. -/
def WFTx (tx : SignedTx) : Prop :=
  tx.version < 4294967296 ∧ tx.locktime < 4294967296 ∧
    tx.inputs.length < 18446744073709551616 ∧ tx.outputs.length < 18446744073709551616 ∧
    tx.witnesses.length = tx.inputs.length ∧
    (∀ i ∈ tx.inputs, WFInput i) ∧ (∀ o ∈ tx.outputs, WFOutput o) ∧
    (∀ w ∈ tx.witnesses, WFWitness w)

instance (tx : SignedTx) : Decidable (WFTx tx) := by
  unfold WFTx; infer_instance

-- ==========================================================================
-- The pipeline (`simulatePSBT`, src/assignment.js lines 97-213)
-- ==========================================================================

/-- The byte rendering of a locking script.  Modelled from the spec: a
p2wpkh output script is the witness version byte, a 20-byte push, and the
key hash; the hash itself is library code, so the key-derived bytes stand
in for it (deterministic in the public key). -/
def scriptBytes : Script → List Nat
  | .p2wpkh pubkey => 0 :: 20 :: strBytes pubkey

/-- Modelled from the spec: the wire-format view of the finalized
transaction (`psbt.extractTransaction()`, spec section 6): version, prevout
references with empty legacy scripts, outputs with their locking scripts,
and the finalized witness stacks. -/
def toWire (tx : UnsignedTx) (ws : List WitnessStack) : SignedTx :=
  { version := 2,
    inputs := tx.inputs.map fun i =>
      { prevHash := strBytes i.hash, prevIndex := i.index,
        scriptSig := [], sequence := 0xffffffff },
    outputs := tx.outputs.map fun o =>
      { value := o.value, scriptPubKey := strBytes o.address },
    witnesses := ws,
    locktime := 0 }

/-- `psbt.extractTransaction()` on a finalized state. -/
def extractTransaction (s : SignedState) : SignedTx :=
  toWire s.tx (s.witnesses.map (fun w => w.getD []))

/-- `broadcastTransaction` (src/assignment.js lines 83-94) with the relay
response passed in. -/
def broadcastTransaction (response : Except String String) : Except PipelineError String :=
  match response with
  | .error msg => .error (.BroadcastError ("Failed to broadcast transaction: " ++ msg))
  | .ok txid => .ok txid

/-- The stages of the pipeline, in their source order. -/
inductive Stage where
  | fetchUTXOs
  | selectUTXO
  | fetchRawTx
  | build
  | sign
  | finalize
  | broadcast
deriving DecidableEq, Repr

/-- The responses of the three network interactions, supplied externally:
the UTXO listing, the raw-transaction fetch, and the broadcast reply. -/
structure Oracle where
  utxoResponse : Except String (List UTXO)
  rawTxResponse : Except String String
  broadcastResponse : Except String String
deriving Repr

instance {ε α : Type} [DecidableEq ε] [DecidableEq α] : DecidableEq (Except ε α) := fun a b =>
  match a, b with
  | .error x, .error y => decidable_of_iff (x = y) (by simp)
  | .error _, .ok _ => isFalse (fun h => by cases h)
  | .ok _, .error _ => isFalse (fun h => by cases h)
  | .ok x, .ok y => decidable_of_iff (x = y) (by simp)

/-- Everything observable about one run: the outcome, the ordered trace of
stages entered, and the intermediate artifacts that were produced. -/
structure RunResult where
  outcome : Except PipelineError String
  trace : List Stage
  builtTx : Option UnsignedTx
  signedTx : Option SignedTx
  txHex : Option (List Nat)
deriving DecidableEq, Repr

/-- `simulatePSBT` (src/assignment.js lines 97-213): fetch UTXOs, select
the first with value ≥ `AMOUNT_TO_SEND + FEE`, fetch the selected UTXO's
raw transaction (used only for logging in the source), build, sign input 0,
finalize, extract the hex, broadcast.  Each stage runs only if all earlier
stages succeeded; the first failure aborts the run. -/
def simulatePSBT (o : Oracle) : RunResult :=
  let keyPub := pubkeyOfPriv WALLET_PRIVATE_KEY
  let address := p2wpkhAddress keyPub
  match getUTXOs o.utxoResponse with
  | .error e =>
    { outcome := .error e, trace := [.fetchUTXOs],
      builtTx := none, signedTx := none, txHex := none }
  | .ok utxos =>
    match selectUTXO utxos (AMOUNT_TO_SEND + FEE) with
    | none =>
      { outcome := .error (.InsufficientFundsError
          "No UTXO with sufficient balance found."),
        trace := [.fetchUTXOs, .selectUTXO],
        builtTx := none, signedTx := none, txHex := none }
    | some utxo =>
      match getTransactionHex o.rawTxResponse with
      | .error e =>
        { outcome := .error e, trace := [.fetchUTXOs, .selectUTXO, .fetchRawTx],
          builtTx := none, signedTx := none, txHex := none }
      | .ok _utxoTxHex =>
        match build utxo (Script.p2wpkh keyPub) address DESTINATION_ADDRESS
            AMOUNT_TO_SEND FEE with
        | .error e =>
          { outcome := .error e,
            trace := [.fetchUTXOs, .selectUTXO, .fetchRawTx, .build],
            builtTx := none, signedTx := none, txHex := none }
        | .ok tx =>
          let signedState := signInput tx WALLET_PRIVATE_KEY keyPub 0
          match finalizeAllInputs signedState with
          | .error e =>
            { outcome := .error e,
              trace := [.fetchUTXOs, .selectUTXO, .fetchRawTx, .build, .sign, .finalize],
              builtTx := some tx, signedTx := none, txHex := none }
          | .ok fin =>
            let wire := extractTransaction fin
            let hex := serializeTx wire
            match broadcastTransaction o.broadcastResponse with
            | .error e =>
              { outcome := .error e,
                trace := [.fetchUTXOs, .selectUTXO, .fetchRawTx, .build,
                  .sign, .finalize, .broadcast],
                builtTx := some tx, signedTx := some wire, txHex := some hex }
            | .ok txid =>
              { outcome := .ok txid,
                trace := [.fetchUTXOs, .selectUTXO, .fetchRawTx, .build,
                  .sign, .finalize, .broadcast],
                builtTx := some tx, signedTx := some wire, txHex := some hex }

-- ==========================================================================
-- Codec round-trip lemmas
-- ==========================================================================

theorem parseLE_encodeLE (w n : Nat) (h : n < 256 ^ w) (r : List Nat) :
    parseLE w (encodeLE w n ++ r) = some (n, r) := by
  induction w generalizing n with
  | zero =>
    have hn : n = 0 := by simpa using h
    simp [hn, encodeLE, parseLE]
  | succ w ih =>
    have hdiv : n / 256 < 256 ^ w := by
      have h2 : n < 256 * 256 ^ w := by
        calc n < 256 ^ (w + 1) := h
        _ = 256 * 256 ^ w := by ring
      exact Nat.div_lt_of_lt_mul h2
    simp [encodeLE, parseLE, ih (n / 256) hdiv]
    omega

theorem parseVarint_encodeVarint (n : Nat) (h : n < 18446744073709551616) (r : List Nat) :
    parseVarint (encodeVarint n ++ r) = some (n, r) := by
  unfold encodeVarint
  by_cases h1 : n < 0xfd
  · have h2 : n ≠ 0xfd := by omega
    have h3 : n ≠ 0xfe := by omega
    have h4 : n ≠ 0xff := by omega
    simp [h1, parseVarint, h2, h3, h4]
  · by_cases h5 : n < 0x10000
    · have hb : n < 256 ^ 2 := by norm_num; omega
      simp [h1, h5, parseVarint, parseLE_encodeLE 2 n hb]
    · by_cases h6 : n < 0x100000000
      · have hb : n < 256 ^ 4 := by norm_num; omega
        simp [h1, h5, h6, parseVarint, parseLE_encodeLE 4 n hb]
      · have hb : n < 256 ^ 8 := by norm_num; omega
        simp [h1, h5, h6, parseVarint, parseLE_encodeLE 8 n hb]

theorem parseFixed_append (s r : List Nat) :
    parseFixed s.length (s ++ r) = some (s, r) := by
  unfold parseFixed
  rw [if_pos (by simp)]
  simp

theorem parseBytes_append (s r : List Nat) (h : s.length < 18446744073709551616) :
    parseBytes (encodeVarint s.length ++ (s ++ r)) = some (s, r) := by
  unfold parseBytes
  rw [parseVarint_encodeVarint s.length h]
  simp [parseFixed_append]

theorem parseCount_append {α : Type} (p : List Nat → Option (α × List Nat))
    (enc : α → List Nat) (l : List α) (r : List Nat)
    (h : ∀ a ∈ l, ∀ r2, p (enc a ++ r2) = some (a, r2)) :
    parseCount p l.length (l.flatMap enc ++ r) = some (l, r) := by
  induction l with
  | nil => simp [parseCount]
  | cons a t ih =>
    have ha := h a (by simp) (t.flatMap enc ++ r)
    have ht := ih (fun b hb r2 => h b (by simp [hb]) r2)
    simp only [List.length_cons, List.flatMap_cons, List.append_assoc, parseCount]
    rw [ha]
    simp only [Option.some_bind]
    rw [ht]
    rfl

theorem parseInput_append (i : WireInput) (r : List Nat) (wf : WFInput i) :
    parseInput (serializeInput i ++ r) = some (i, r) := by
  obtain ⟨h32, hidx, hss, hseq⟩ := wf
  have hidx4 : i.prevIndex < 256 ^ 4 := by norm_num; omega
  have hseq4 : i.sequence < 256 ^ 4 := by norm_num; omega
  unfold serializeInput parseInput
  simp only [List.append_assoc]
  rw [← h32, parseFixed_append]
  simp only [Option.some_bind]
  rw [parseLE_encodeLE 4 i.prevIndex hidx4]
  simp only [Option.some_bind]
  rw [show i.scriptSig ++ (encodeLE 4 i.sequence ++ r) =
        i.scriptSig ++ (encodeLE 4 i.sequence ++ r) from rfl,
      parseBytes_append i.scriptSig (encodeLE 4 i.sequence ++ r) hss]
  simp only [Option.some_bind]
  rw [parseLE_encodeLE 4 i.sequence hseq4]
  rfl

theorem parseOutput_append (o : WireOutput) (r : List Nat) (wf : WFOutput o) :
    parseOutput (serializeOutput o ++ r) = some (o, r) := by
  obtain ⟨hv, hspk⟩ := wf
  have hv8 : o.value < 256 ^ 8 := by norm_num; omega
  unfold serializeOutput parseOutput
  simp only [List.append_assoc]
  rw [parseLE_encodeLE 8 o.value hv8]
  simp only [Option.some_bind]
  rw [parseBytes_append o.scriptPubKey r hspk]
  rfl

theorem parseWitnessStack_append (w : WitnessStack) (r : List Nat) (wf : WFWitness w) :
    parseWitnessStack (serializeWitnessStack w ++ r) = some (w, r) := by
  obtain ⟨hlen, hitems⟩ := wf
  unfold serializeWitnessStack parseWitnessStack
  simp only [List.append_assoc]
  rw [parseVarint_encodeVarint w.length hlen]
  simp only [Option.some_bind]
  exact parseCount_append parseBytes _ w r
    (fun item hitem r2 => by
      rw [List.append_assoc]
      exact parseBytes_append item r2 (hitems item hitem))

theorem parseTx_serializeTx (tx : SignedTx) (wf : WFTx tx) :
    parseTx (serializeTx tx) = some tx := by
  obtain ⟨hver, hlock, hnin, hnout, hwlen, hins, houts, hws⟩ := wf
  have hver4 : tx.version < 256 ^ 4 := by norm_num; omega
  have hlock4 : tx.locktime < 256 ^ 4 := by norm_num; omega
  have hmf : ∀ x : List Nat, parseFixed 2 (([0, 1] : List Nat) ++ x) = some ([0, 1], x) :=
    fun x => parseFixed_append [0, 1] x
  unfold serializeTx parseTx
  simp only [List.append_assoc]
  rw [parseLE_encodeLE 4 tx.version hver4]
  simp only [Option.some_bind]
  rw [hmf]
  simp only [Option.some_bind, if_true]
  rw [parseVarint_encodeVarint tx.inputs.length hnin]
  simp only [Option.some_bind]
  rw [parseCount_append parseInput serializeInput tx.inputs _
    (fun i hi r2 => parseInput_append i r2 (hins i hi))]
  simp only [Option.some_bind]
  rw [parseVarint_encodeVarint tx.outputs.length hnout]
  simp only [Option.some_bind]
  rw [parseCount_append parseOutput serializeOutput tx.outputs _
    (fun o ho r2 => parseOutput_append o r2 (houts o ho))]
  simp only [Option.some_bind]
  rw [← hwlen]
  rw [parseCount_append parseWitnessStack serializeWitnessStack tx.witnesses _
    (fun w hw r2 => parseWitnessStack_append w r2 (hws w hw))]
  simp only [Option.some_bind]
  rw [← List.append_nil (encodeLE 4 tx.locktime)]
  rw [parseLE_encodeLE 4 tx.locktime hlock4]
  simp only [Option.some_bind, if_true]


-- ==========================================================================
-- Demo inputs used by witness theorems
-- ==========================================================================

def demoUTXO : UTXO :=
  { txid := "prevtx", vout := 1, value := 5000, status := true }

def demoOracle : Oracle :=
  { utxoResponse := .ok [demoUTXO], rawTxResponse := .ok "00aabb",
    broadcastResponse := .ok "txid123" }

def demoInput : TxInput :=
  { hash := demoUTXO.txid, index := demoUTXO.vout,
    witnessScript := .p2wpkh (pubkeyOfPriv WALLET_PRIVATE_KEY),
    witnessValue := demoUTXO.value }

def demoChangeOutput : TxOutput :=
  { address := p2wpkhAddress (pubkeyOfPriv WALLET_PRIVATE_KEY), value := 3800 }

def demoBuilt : UnsignedTx :=
  { inputs := [demoInput],
    outputs := [{ address := DESTINATION_ADDRESS, value := AMOUNT_TO_SEND },
      demoChangeOutput] }

-- ==========================================================================
-- Claim theorems
-- ==========================================================================

/-- C1: for every selected UTXO value, amountToSend and fee, `build`
computes `change = value - amountToSend - fee`, fails with the
insufficient-funds error exactly when `change < 0`, always emits the
destination output of value `amountToSend` first, and emits a change output
to the sender's own address of value `change` exactly when `change > 0`
(none when `change = 0`; any positive change, even sub-dust, is emitted). -/
theorem C1_build_change_spec (utxo : UTXO) (script : Script)
    (senderAddr dest : String) (amountToSend fee : Nat) :
    ((build utxo script senderAddr dest amountToSend fee =
        .error (.InsufficientFundsError
          "Input amount is not enough to cover the transaction and fee.")) ↔
      (utxo.value : Int) - amountToSend - fee < 0) ∧
    (∀ tx, build utxo script senderAddr dest amountToSend fee = .ok tx →
      tx.outputs.head? = some { address := dest, value := amountToSend } ∧
      (0 < (utxo.value : Int) - amountToSend - fee →
        tx.outputs = [{ address := dest, value := amountToSend },
          { address := senderAddr,
            value := ((utxo.value : Int) - amountToSend - fee).toNat }]) ∧
      ((utxo.value : Int) - amountToSend - fee = 0 →
        tx.outputs = [{ address := dest, value := amountToSend }])) := by
  constructor
  · by_cases hc : (utxo.value : Int) - amountToSend - fee < 0
    · simp [build, hc]
    · simp [build, hc]
  · intro tx htx
    by_cases hc : (utxo.value : Int) - amountToSend - fee < 0
    · simp [build, hc] at htx
    · simp [build, hc] at htx
      subst htx
      refine ⟨by simp, ?_, ?_⟩
      · intro h0
        simp [h0]
        omega
      · intro h0
        simp [h0]
        omega

def demoSmallTx : UnsignedTx :=
  { inputs := [{ hash := "prevtx", index := 1, witnessScript := .p2wpkh "pk", witnessValue := 5000 }],
    outputs := [{ address := "dest", value := 1000 }, { address := "sender", value := 3800 }] }

/-- Witness for C1 at UTXO value 5000, amountToSend 1000, fee 200
(change 3800 > 0). -/
theorem C1_build_change_spec_witness :
    (([{ address := "dest", value := 1000 },
       { address := "sender", value := 3800 }] : List TxOutput).head? =
      some { address := "dest", value := 1000 }) ∧
    ([{ address := "dest", value := 1000 },
      { address := "sender", value := 3800 }] : List TxOutput) =
      [{ address := "dest", value := 1000 },
       { address := "sender", value := ((5000 : Int) - 1000 - 200).toNat }] := by
  have h := (C1_build_change_spec ⟨"prevtx", 1, 5000, true⟩ (.p2wpkh "pk")
    "sender" "dest" 1000 200).2 demoSmallTx rfl
  exact ⟨h.1, h.2.1 (by decide)⟩

/-- C2: `select` returns the first UTXO in sequence order whose value is at
least the minimum, and it returns some UTXO iff one of at least the minimum
value exists (otherwise `find` yields none and the source throws the
insufficient-funds error). -/
theorem C2_select_first_sufficient (utxos : List UTXO) (m : Nat) :
    ((selectUTXO utxos m).isSome ↔ ∃ u ∈ utxos, m ≤ u.value) ∧
    (∀ u, selectUTXO utxos m = some u →
      m ≤ u.value ∧
        ∃ pre post, utxos = pre ++ u :: post ∧ ∀ w ∈ pre, w.value < m) := by
  induction utxos with
  | nil => simp [selectUTXO]
  | cons a t ih =>
    by_cases h : m ≤ a.value
    · have hsel : selectUTXO (a :: t) m = some a := by
        simp [selectUTXO, List.find?_cons, h]
      refine ⟨?_, ?_⟩
      · rw [hsel]
        simp only [Option.isSome_some, true_iff]
        exact ⟨a, by simp, h⟩
      · intro u hu
        rw [hsel] at hu
        obtain rfl : a = u := by simpa using hu
        exact ⟨h, [], t, rfl, by simp⟩
    · have hsel : selectUTXO (a :: t) m = selectUTXO t m := by
        simp [selectUTXO, List.find?_cons, h]
      refine ⟨?_, ?_⟩
      · rw [hsel, ih.1]
        constructor
        · rintro ⟨u, hu, hm⟩
          exact ⟨u, by simp [hu], hm⟩
        · rintro ⟨u, hu, hm⟩
          rcases List.mem_cons.mp hu with rfl | hut
          · exact absurd hm h
          · exact ⟨u, hut, hm⟩
      · intro u hu
        rw [hsel] at hu
        obtain ⟨hm, pre, post, heq, hpre⟩ := ih.2 u hu
        refine ⟨hm, a :: pre, post, by simp [heq], ?_⟩
        intro w hw
        rcases List.mem_cons.mp hw with rfl | hwp
        · omega
        · exact hpre w hwp

/-- Witness for C2 on a two-element list whose second element qualifies. -/
theorem C2_select_first_sufficient_witness :
    ((selectUTXO [⟨"a", 0, 100, true⟩, ⟨"b", 1, 2000, true⟩] 1200).isSome ↔
      ∃ u ∈ [(⟨"a", 0, 100, true⟩ : UTXO), ⟨"b", 1, 2000, true⟩], 1200 ≤ u.value) ∧
    (1200 ≤ (2000 : Nat) ∧
      ∃ pre post, [(⟨"a", 0, 100, true⟩ : UTXO), ⟨"b", 1, 2000, true⟩] =
        pre ++ (⟨"b", 1, 2000, true⟩ : UTXO) :: post ∧ ∀ w ∈ pre, w.value < 1200) := by
  have h := C2_select_first_sufficient [⟨"a", 0, 100, true⟩, ⟨"b", 1, 2000, true⟩] 1200
  exact ⟨h.1, h.2 ⟨"b", 1, 2000, true⟩ rfl⟩

/-- C3: for every transaction successfully produced by `build`, the sum of
output values plus the fixed fee equals the sum of input values. -/
theorem C3_value_conservation (utxo : UTXO) (script : Script)
    (senderAddr dest : String) (amountToSend fee : Nat) (tx : UnsignedTx)
    (hok : build utxo script senderAddr dest amountToSend fee = .ok tx) :
    outputSum tx + fee = inputSum tx := by
  simp only [build] at hok
  by_cases hc : (utxo.value : Int) - amountToSend - fee < 0
  · rw [if_pos hc] at hok
    exact Except.noConfusion hok
  · rw [if_neg hc] at hok
    by_cases hp : (0 : Int) < (utxo.value : Int) - amountToSend - fee
    · rw [if_pos hp] at hok
      injection hok with h
      subst h
      simp [outputSum, inputSum]
      omega
    · rw [if_neg hp] at hok
      injection hok with h
      subst h
      simp [outputSum, inputSum]
      omega

/-- Witness for C3 at UTXO value 5000, amountToSend 1000, fee 200. -/
theorem C3_value_conservation_witness :
    outputSum demoSmallTx + 200 = inputSum demoSmallTx :=
  C3_value_conservation ⟨"prevtx", 1, 5000, true⟩ (.p2wpkh "pk")
    "sender" "dest" 1000 200 demoSmallTx rfl

/-- C9: a UTXO that passed selection at minimum `amountToSend + fee` always
builds successfully: the `change < 0` branch is unreachable after a
successful `select` with that exact minimum. -/
theorem C9_build_succeeds_after_select (utxos : List UTXO) (u : UTXO)
    (script : Script) (senderAddr dest : String) (amountToSend fee : Nat)
    (hsel : selectUTXO utxos (amountToSend + fee) = some u) :
    ∃ tx, build u script senderAddr dest amountToSend fee = .ok tx := by
  have hfind : utxos.find? (fun w => amountToSend + fee ≤ w.value) = some u := hsel
  have hval : amountToSend + fee ≤ u.value := by
    simpa using List.find?_some hfind
  have hc : ¬((u.value : Int) - amountToSend - fee < 0) := by omega
  rcases hres : build u script senderAddr dest amountToSend fee with e | tx
  · exfalso
    simp only [build] at hres
    rw [if_neg hc] at hres
    exact Except.noConfusion hres
  · exact ⟨tx, rfl⟩

/-- Witness for C9 at the demo UTXO (value 5000 ≥ 1200). -/
theorem C9_build_succeeds_after_select_witness :
    ∃ tx, build demoUTXO (.p2wpkh "pk") "sender" "dest" 1000 200 = .ok tx :=
  C9_build_succeeds_after_select [demoUTXO] demoUTXO (.p2wpkh "pk")
    "sender" "dest" 1000 200 rfl

def demoEmptyOracle : Oracle :=
  { utxoResponse := .ok [], rawTxResponse := .ok "aa", broadcastResponse := .ok "bb" }

/-- C4: `getUTXOs` returns the UTXO sequence, fails with a network error on
transport failure, and fails with the distinct no-funds error on an empty
sequence; in the pipeline the empty-sequence failure happens before any
transaction is built. -/
theorem C4_fetch_error_taxonomy (msg : String) (utxos : List UTXO) (o : Oracle) :
    getUTXOs (.error msg) =
      .error (.NetworkError ("Failed to fetch UTXOs: " ++ msg)) ∧
    getUTXOs (.ok []) = .error .NoFundsError ∧
    PipelineError.NoFundsError ≠ PipelineError.NetworkError msg ∧
    (utxos ≠ [] → getUTXOs (.ok utxos) = .ok utxos) ∧
    (o.utxoResponse = .ok [] →
      (simulatePSBT o).outcome = .error .NoFundsError ∧
      (simulatePSBT o).builtTx = none ∧
      Stage.build ∉ (simulatePSBT o).trace) := by
  refine ⟨rfl, rfl, by simp, ?_, ?_⟩
  · intro hne
    have hfun : (fun u : UTXO =>
        ({ txid := u.txid, vout := u.vout, value := u.value,
           status := u.status } : UTXO)) = fun u => u := rfl
    simp [getUTXOs, hfun, List.length_eq_zero, hne]
  · intro h0
    have hg : getUTXOs o.utxoResponse = .error .NoFundsError := by rw [h0]; rfl
    simp [simulatePSBT, hg]

/-- Witness for C4: a nonempty listing passes through unchanged, and an
empty listing stops the pipeline before building. -/
theorem C4_fetch_error_taxonomy_witness :
    getUTXOs (.ok [demoUTXO]) = .ok [demoUTXO] ∧
    ((simulatePSBT demoEmptyOracle).outcome = .error .NoFundsError ∧
      (simulatePSBT demoEmptyOracle).builtTx = none ∧
      Stage.build ∉ (simulatePSBT demoEmptyOracle).trace) := by
  have h := C4_fetch_error_taxonomy "boom" [demoUTXO] demoEmptyOracle
  exact ⟨h.2.2.2.1 (by simp), h.2.2.2.2 rfl⟩

theorem build_ok_inputs (utxo : UTXO) (script : Script) (senderAddr dest : String)
    (amountToSend fee : Nat) (tx : UnsignedTx)
    (hok : build utxo script senderAddr dest amountToSend fee = .ok tx) :
    tx.inputs = [{ hash := utxo.txid, index := utxo.vout,
                   witnessScript := script, witnessValue := utxo.value }] := by
  simp only [build] at hok
  by_cases hc : (utxo.value : Int) - amountToSend - fee < 0
  · rw [if_pos hc] at hok
    exact Except.noConfusion hok
  · rw [if_neg hc] at hok
    injection hok with h
    subst h
    rfl

/-- C5: the built transaction's single input references the selected UTXO's
transaction id and output index and carries the witness-committed value of
that UTXO together with the sender's p2wpkh locking script (the script that
locks the outputs fetched for the wallet's own address). -/
theorem C5_input_references_selected (o : Oracle) (tx : UnsignedTx)
    (h : (simulatePSBT o).builtTx = some tx) :
    ∃ utxos u, getUTXOs o.utxoResponse = .ok utxos ∧
      selectUTXO utxos (AMOUNT_TO_SEND + FEE) = some u ∧
      tx.inputs = [{ hash := u.txid, index := u.vout,
                     witnessScript := Script.p2wpkh (pubkeyOfPriv WALLET_PRIVATE_KEY),
                     witnessValue := u.value }] := by
  rcases hg : getUTXOs o.utxoResponse with e0 | utxos
  · simp [simulatePSBT, hg] at h
  · rcases hs : selectUTXO utxos (AMOUNT_TO_SEND + FEE) with _ | u
    · simp [simulatePSBT, hg, hs] at h
    · rcases ht : getTransactionHex o.rawTxResponse with e2 | hex
      · simp [simulatePSBT, hg, hs, ht] at h
      · rcases hb : build u (Script.p2wpkh (pubkeyOfPriv WALLET_PRIVATE_KEY))
            (p2wpkhAddress (pubkeyOfPriv WALLET_PRIVATE_KEY)) DESTINATION_ADDRESS
            AMOUNT_TO_SEND FEE with e3 | tx2
        · simp [simulatePSBT, hg, hs, ht, hb] at h
        · rcases hf : finalizeAllInputs
              (signInput tx2 WALLET_PRIVATE_KEY (pubkeyOfPriv WALLET_PRIVATE_KEY) 0)
              with e4 | fin
          · simp [simulatePSBT, hg, hs, ht, hb, hf] at h
            subst h
            exact ⟨utxos, u, rfl, hs, build_ok_inputs _ _ _ _ _ _ _ hb⟩
          · rcases hbr : broadcastTransaction o.broadcastResponse with e5 | tid
            · simp [simulatePSBT, hg, hs, ht, hb, hf, hbr] at h
              subst h
              exact ⟨utxos, u, rfl, hs, build_ok_inputs _ _ _ _ _ _ _ hb⟩
            · simp [simulatePSBT, hg, hs, ht, hb, hf, hbr] at h
              subst h
              exact ⟨utxos, u, rfl, hs, build_ok_inputs _ _ _ _ _ _ _ hb⟩

/-- Witness for C5 on the demo oracle (UTXO of value 5000). -/
theorem C5_input_references_selected_witness :
    ∃ utxos u, getUTXOs demoOracle.utxoResponse = .ok utxos ∧
      selectUTXO utxos (AMOUNT_TO_SEND + FEE) = some u ∧
      demoBuilt.inputs = [{ hash := u.txid, index := u.vout,
                            witnessScript := Script.p2wpkh (pubkeyOfPriv WALLET_PRIVATE_KEY),
                            witnessValue := u.value }] :=
  C5_input_references_selected demoOracle demoBuilt rfl

/-- C6: the pipeline is strictly sequential (its trace is always a prefix
of fetch, select, fetchRaw, build, sign, finalize, broadcast) and broadcast
is never entered when any earlier stage failed: a non-broadcast error
outcome implies the broadcast stage was never invoked. -/
theorem C6_sequential_no_broadcast_after_failure (o : Oracle) :
    ((simulatePSBT o).trace <+: [Stage.fetchUTXOs, Stage.selectUTXO,
      Stage.fetchRawTx, Stage.build, Stage.sign, Stage.finalize,
      Stage.broadcast]) ∧
    (∀ e, (simulatePSBT o).outcome = .error e →
      (∀ msg, e ≠ .BroadcastError msg) →
      Stage.broadcast ∉ (simulatePSBT o).trace) := by
  rcases hg : getUTXOs o.utxoResponse with e0 | utxos
  · have hr : (simulatePSBT o).trace = [Stage.fetchUTXOs] ∧
        (simulatePSBT o).outcome = .error e0 := by
      simp [simulatePSBT, hg]
    rw [hr.1]
    exact ⟨⟨[Stage.selectUTXO, Stage.fetchRawTx, Stage.build, Stage.sign,
      Stage.finalize, Stage.broadcast], rfl⟩, fun e _ _ => by decide⟩
  · rcases hs : selectUTXO utxos (AMOUNT_TO_SEND + FEE) with _ | u
    · have hr : (simulatePSBT o).trace = [Stage.fetchUTXOs, Stage.selectUTXO] := by
        simp [simulatePSBT, hg, hs]
      rw [hr]
      exact ⟨⟨[Stage.fetchRawTx, Stage.build, Stage.sign, Stage.finalize,
        Stage.broadcast], rfl⟩, fun e _ _ => by decide⟩
    · rcases ht : getTransactionHex o.rawTxResponse with e2 | hex
      · have hr : (simulatePSBT o).trace =
            [Stage.fetchUTXOs, Stage.selectUTXO, Stage.fetchRawTx] := by
          simp [simulatePSBT, hg, hs, ht]
        rw [hr]
        exact ⟨⟨[Stage.build, Stage.sign, Stage.finalize, Stage.broadcast], rfl⟩,
          fun e _ _ => by decide⟩
      · rcases hb : build u (Script.p2wpkh (pubkeyOfPriv WALLET_PRIVATE_KEY))
            (p2wpkhAddress (pubkeyOfPriv WALLET_PRIVATE_KEY)) DESTINATION_ADDRESS
            AMOUNT_TO_SEND FEE with e3 | tx2
        · have hr : (simulatePSBT o).trace =
              [Stage.fetchUTXOs, Stage.selectUTXO, Stage.fetchRawTx, Stage.build] := by
            simp [simulatePSBT, hg, hs, ht, hb]
          rw [hr]
          exact ⟨⟨[Stage.sign, Stage.finalize, Stage.broadcast], rfl⟩,
            fun e _ _ => by decide⟩
        · rcases hf : finalizeAllInputs
              (signInput tx2 WALLET_PRIVATE_KEY (pubkeyOfPriv WALLET_PRIVATE_KEY) 0)
              with e4 | fin
          · have hr : (simulatePSBT o).trace = [Stage.fetchUTXOs, Stage.selectUTXO,
                Stage.fetchRawTx, Stage.build, Stage.sign, Stage.finalize] := by
              simp [simulatePSBT, hg, hs, ht, hb, hf]
            rw [hr]
            exact ⟨⟨[Stage.broadcast], rfl⟩, fun e _ _ => by decide⟩
          · rcases hbr : o.broadcastResponse with m | tid
            · have hr : (simulatePSBT o).trace = [Stage.fetchUTXOs, Stage.selectUTXO,
                  Stage.fetchRawTx, Stage.build, Stage.sign, Stage.finalize,
                  Stage.broadcast] ∧
                  (simulatePSBT o).outcome = .error
                    (.BroadcastError ("Failed to broadcast transaction: " ++ m)) := by
                simp [simulatePSBT, hg, hs, ht, hb, hf, hbr, broadcastTransaction]
              refine ⟨by rw [hr.1], ?_⟩
              intro e he hmsg
              rw [hr.2] at he
              injection he with h2
              exact absurd h2.symm (hmsg _)
            · have hr : (simulatePSBT o).trace = [Stage.fetchUTXOs, Stage.selectUTXO,
                  Stage.fetchRawTx, Stage.build, Stage.sign, Stage.finalize,
                  Stage.broadcast] ∧
                  (simulatePSBT o).outcome = .ok tid := by
                simp [simulatePSBT, hg, hs, ht, hb, hf, hbr, broadcastTransaction]
              refine ⟨by rw [hr.1], ?_⟩
              intro e he hmsg
              rw [hr.2] at he
              exact Except.noConfusion he

/-- Witness for C6 on the demo oracle: the trace of a successful run, and
the no-broadcast guarantee instantiated at the empty-listing oracle, whose
outcome is the (non-broadcast) no-funds error. -/
theorem C6_sequential_no_broadcast_after_failure_witness :
    ((simulatePSBT demoOracle).trace <+: [Stage.fetchUTXOs, Stage.selectUTXO,
      Stage.fetchRawTx, Stage.build, Stage.sign, Stage.finalize,
      Stage.broadcast]) ∧
    Stage.broadcast ∉ (simulatePSBT demoEmptyOracle).trace :=
  ⟨(C6_sequential_no_broadcast_after_failure demoOracle).1,
   (C6_sequential_no_broadcast_after_failure demoEmptyOracle).2
     PipelineError.NoFundsError rfl (fun _ h => PipelineError.noConfusion h)⟩

/-- C7: finalizing an already-finalized transaction succeeds again and
yields a byte encoding identical to the first finalization's encoding. -/
theorem C7_finalize_idempotent (s t : SignedState)
    (h : finalizeAllInputs s = .ok t) :
    ∃ u, finalizeAllInputs t = .ok u ∧
      serializeTx (extractTransaction u) = serializeTx (extractTransaction t) := by
  unfold finalizeAllInputs at h ⊢
  by_cases hall : s.witnesses.all Option.isSome
  · rw [if_pos hall] at h
    injection h with h2
    subst h2
    rw [if_pos hall]
    exact ⟨s, rfl, rfl⟩
  · rw [if_neg hall] at h
    exact Except.noConfusion h

/-- Witness for C7 on a fully signed single-input demo state. -/
theorem C7_finalize_idempotent_witness :
    ∃ u, finalizeAllInputs (signInput demoSmallTx "k" "p" 0) = .ok u ∧
      serializeTx (extractTransaction u) =
        serializeTx (extractTransaction (signInput demoSmallTx "k" "p" 0)) :=
  C7_finalize_idempotent (signInput demoSmallTx "k" "p" 0)
    (signInput demoSmallTx "k" "p" 0) rfl

/-- C8: serializing a well-formed signed transaction to the wire encoding
and parsing it back yields input, output and witness data equal to the
pre-serialization structure. -/
theorem C8_serialize_parse_roundtrip (tx : SignedTx) (wf : WFTx tx) :
    ∃ tx2, parseTx (serializeTx tx) = some tx2 ∧
      tx2.inputs = tx.inputs ∧ tx2.outputs = tx.outputs ∧
      tx2.witnesses = tx.witnesses :=
  ⟨tx, parseTx_serializeTx tx wf, rfl, rfl, rfl⟩

def demoWireTx : SignedTx :=
  { version := 2,
    inputs := [{ prevHash := List.replicate 32 7, prevIndex := 1,
                 scriptSig := [], sequence := 4294967295 }],
    outputs := [{ value := 1000, scriptPubKey := [0, 20, 9, 9] }],
    witnesses := [[[48, 69, 1], [2, 33, 3]]],
    locktime := 0 }

/-- Witness for C8 on a concrete single-input segwit transaction. -/
theorem C8_serialize_parse_roundtrip_witness :
    ∃ tx2, parseTx (serializeTx demoWireTx) = some tx2 ∧
      tx2.inputs = demoWireTx.inputs ∧ tx2.outputs = demoWireTx.outputs ∧
      tx2.witnesses = demoWireTx.witnesses :=
  C8_serialize_parse_roundtrip demoWireTx (by decide)

/-- C10: the built and signed transaction and its final hex encoding do not
depend on the raw-transaction bytes fetched for the selected UTXO: two runs
differing only in that fetched hex produce identical artifacts. -/
theorem C10_independent_of_rawtx (o1 o2 : Oracle) (r1 r2 : String)
    (hu : o1.utxoResponse = o2.utxoResponse)
    (hb : o1.broadcastResponse = o2.broadcastResponse)
    (h1 : o1.rawTxResponse = .ok r1) (h2 : o2.rawTxResponse = .ok r2) :
    (simulatePSBT o1).builtTx = (simulatePSBT o2).builtTx ∧
    (simulatePSBT o1).signedTx = (simulatePSBT o2).signedTx ∧
    (simulatePSBT o1).txHex = (simulatePSBT o2).txHex := by
  obtain ⟨u1, rt1, b1⟩ := o1
  obtain ⟨u2, rt2, b2⟩ := o2
  dsimp only at hu hb h1 h2
  subst hu
  subst hb
  subst h1
  subst h2
  rcases hg : getUTXOs u1 with e0 | utxos
  · simp [simulatePSBT, hg]
  · rcases hs : selectUTXO utxos (AMOUNT_TO_SEND + FEE) with _ | u
    · simp [simulatePSBT, hg, hs]
    · simp [simulatePSBT, hg, hs, getTransactionHex]

/-- Witness for C10: two runs differing only in the fetched raw hex. -/
theorem C10_independent_of_rawtx_witness :
    (simulatePSBT demoOracle).builtTx =
      (simulatePSBT { demoOracle with rawTxResponse := .ok "ffff" }).builtTx ∧
    (simulatePSBT demoOracle).signedTx =
      (simulatePSBT { demoOracle with rawTxResponse := .ok "ffff" }).signedTx ∧
    (simulatePSBT demoOracle).txHex =
      (simulatePSBT { demoOracle with rawTxResponse := .ok "ffff" }).txHex :=
  C10_independent_of_rawtx demoOracle
    { demoOracle with rawTxResponse := .ok "ffff" } "00aabb" "ffff"
    rfl rfl rfl rfl

end PSBT
